import Mathlib

/-!
Shallow embedding of the task-relevance filtering core of the Donna-Life
backend (`app/services/chat/chat.py`): the temporal resolver
`parse_date_from_text` and the relevance filter `filter_tasks_by_relevance`.

Python `datetime.now()` is modelled by an explicit `Date` parameter `now`
(the spec's "current moment"); only the calendar date matters because every
use formats with `"%Y-%m-%d"`.  Python strings are Lean `String`s; Python
string comparison (`<`, `<=`) is code-point lexicographic and is embedded as
an executable lexicographic comparison on the underlying character lists.
Python's stable `sorted` with a key function is embedded as
`List.insertionSort` with the corresponding key preorder (any stable sort by
the same total preorder produces the same list).  `str.lower()` is embedded
as character-wise `Char.toLower` (ASCII; all keywords in the source are
ASCII).
-/

namespace DonnaLife

/-! ### Calendar dates (model of Python `datetime` at day granularity) -/

/-- A calendar date, the model of the date part of a Python `datetime`. -/
structure Date where
  year : Nat
  month : Nat
  day : Nat
deriving Repr, DecidableEq

/-- Gregorian leap-year rule (as in Python `calendar.isleap`). -/
def isLeapYear (y : Nat) : Bool :=
  (y % 4 == 0 && y % 100 != 0) || y % 400 == 0

/-- Number of days in a month of a given year. -/
def daysInMonth (y m : Nat) : Nat :=
  if m = 2 then (if isLeapYear y then 29 else 28)
  else if m = 4 ∨ m = 6 ∨ m = 9 ∨ m = 11 then 30
  else 31

/-- The calendar day after `d`. -/
def nextDay (d : Date) : Date :=
  if d.day < daysInMonth d.year d.month then ⟨d.year, d.month, d.day + 1⟩
  else if d.month < 12 then ⟨d.year, d.month + 1, 1⟩
  else ⟨d.year + 1, 1, 1⟩

/-- The calendar day before `d` (model of `datetime - timedelta(days=1)`). -/
def prevDay (d : Date) : Date :=
  if 1 < d.day then ⟨d.year, d.month, d.day - 1⟩
  else if 1 < d.month then ⟨d.year, d.month - 1, daysInMonth d.year (d.month - 1)⟩
  else ⟨d.year - 1, 12, 31⟩

/-- Model of `d + timedelta(days=n)`. -/
def addDays (d : Date) : Nat → Date
  | 0 => d
  | n + 1 => nextDay (addDays d n)

/-- Model of `d - timedelta(days=n)`. -/
def subDays (d : Date) : Nat → Date
  | 0 => d
  | n + 1 => prevDay (subDays d n)

/-- Zero-padded two-digit decimal rendering (`%m`, `%d`). -/
def pad2 (n : Nat) : String :=
  if n < 10 then "0" ++ toString n else toString n

/-- Zero-padded four-digit decimal rendering (`%Y`). -/
def pad4 (n : Nat) : String :=
  if n < 10 then "000" ++ toString n
  else if n < 100 then "00" ++ toString n
  else if n < 1000 then "0" ++ toString n
  else toString n

/-- Python `datetime.strftime("%Y-%m-%d")`. -/
def formatDate (d : Date) : String :=
  pad4 d.year ++ "-" ++ pad2 d.month ++ "-" ++ pad2 d.day

/-- Days in the months of year `y` strictly before month `m`. -/
def daysBeforeMonth (y m : Nat) : Nat :=
  (List.range (m - 1)).foldl (fun acc i => acc + daysInMonth y (i + 1)) 0

/-- Rata-die day number of a date (0001-01-01 ↦ 1), proleptic Gregorian. -/
def rataDie (d : Date) : Nat :=
  365 * (d.year - 1) + (d.year - 1) / 4 + (d.year - 1) / 400 - (d.year - 1) / 100
    + daysBeforeMonth d.year d.month + d.day

/-- Python `datetime.weekday()`: Monday = 0 … Sunday = 6.
0001-01-01 is a Monday in the proleptic Gregorian calendar. -/
def weekday (d : Date) : Nat := (rataDie d - 1) % 7

/-! ### String primitives (models of the Python string operations used) -/

/-- Test whether `hay` begins with `needle`. -/
def startsWithL : List Char → List Char → Bool
  | [], _ => true
  | _ :: _, [] => false
  | a :: as, b :: bs => a = b && startsWithL as bs

/-- Test whether `needle` occurs contiguously in `hay`. -/
def containsSub (needle : List Char) : List Char → Bool
  | [] => startsWithL needle []
  | c :: hs => startsWithL needle (c :: hs) || containsSub needle hs

/-- Python `needle in hay` on strings (substring containment). -/
def substr (needle hay : String) : Bool := containsSub needle.data hay.data

/-- Python `str.lower()` (ASCII case folding, character-wise). -/
def lowerStr (s : String) : String := String.mk (s.data.map Char.toLower)

/-- Strict code-point lexicographic order on character lists
(Python `<` on strings); `<` on `Char` is code-point order. -/
def charListLt : List Char → List Char → Bool
  | [], [] => false
  | [], _ :: _ => true
  | _ :: _, [] => false
  | a :: as, b :: bs => decide (a < b) || (decide (a = b) && charListLt as bs)

/-- Non-strict code-point lexicographic order on character lists
(Python `<=` on strings). -/
def charListLe : List Char → List Char → Bool
  | [], _ => true
  | _ :: _, [] => false
  | a :: as, b :: bs => decide (a < b) || (decide (a = b) && charListLe as bs)

/-- Python `a < b` on strings. -/
def strLt (a b : String) : Bool := charListLt a.data b.data

/-- Python `a <= b` on strings. -/
def strLe (a b : String) : Bool := charListLe a.data b.data

/-! ### The regex `(\d{1,2})/(\d{1,2})/(\d{4})` under `re.search` -/

/-- Decimal value of an ASCII digit character. -/
def digVal (c : Char) : Nat := c.toNat - 48

/-- Match `\d{1,2}` greedily at the head of the input.  When two digits are
present the two-digit alternative is forced: the one-digit alternative would
require `/` next, and the next character is a digit. -/
def parse12 : List Char → Option (Nat × List Char)
  | a :: b :: rest =>
    if a.isDigit && b.isDigit then some (digVal a * 10 + digVal b, rest)
    else if a.isDigit then some (digVal a, b :: rest)
    else none
  | [a] => if a.isDigit then some (digVal a, []) else none
  | [] => none

/-- Match `\d{4}` at the head of the input. -/
def parse4 : List Char → Option Nat
  | a :: b :: c :: d :: _ =>
    if a.isDigit && b.isDigit && c.isDigit && d.isDigit then
      some (((digVal a * 10 + digVal b) * 10 + digVal c) * 10 + digVal d)
    else none
  | _ => none

/-- Match `(\d{1,2})/(\d{1,2})/(\d{4})` anchored at the head of the input,
returning `(day, month, year)` as numbers (the Python code applies `int` to
the captured groups). -/
def matchFrom (cs : List Char) : Option (Nat × Nat × Nat) :=
  match parse12 cs with
  | none => none
  | some (day, rest1) =>
    match rest1 with
    | '/' :: rest2 =>
      match parse12 rest2 with
      | none => none
      | some (mon, rest3) =>
        match rest3 with
        | '/' :: rest4 =>
          match parse4 rest4 with
          | none => none
          | some y => some (day, mon, y)
        | _ => none
    | _ => none

/-- Model of `re.search` for the date pattern: leftmost match wins. -/
def searchDate : List Char → Option (Nat × Nat × Nat)
  | [] => none
  | c :: cs =>
    match matchFrom (c :: cs) with
    | some r => some r
    | none => searchDate cs

/-- Python `datetime(year, month, day)`: `some` iff the triple is a valid
proleptic-Gregorian date in Python's supported year range, else `none`
(the `ValueError` case). -/
def mkValidDate (y m d : Nat) : Option Date :=
  if 1 ≤ y ∧ y ≤ 9999 ∧ 1 ≤ m ∧ m ≤ 12 ∧ 1 ≤ d ∧ d ≤ daysInMonth y m then
    some ⟨y, m, d⟩
  else none

/-! ### `ChatService.parse_date_from_text` -/

/-- Embedding of `ChatService.parse_date_from_text` (chat.py lines 163-192),
with `datetime.now()` made the explicit parameter `now`. -/
def parse_date_from_text (now : Date) (text : String) : String :=
  let current_date := formatDate now
  let text_lower := lowerStr text
  if substr "today" text_lower then current_date
  else if substr "tomorrow" text_lower then formatDate (addDays now 1)
  else if substr "next week" text_lower then formatDate (addDays now 7)
  else if substr "next month" text_lower then formatDate (addDays now 30)
  else
    match searchDate text.data with
    | some (day, mon, year) =>
      match mkValidDate year mon day with
      | some d => formatDate d
      | none => current_date
    | none => current_date

/-! ### Task records -/

/-- A task record (§3 of the source's data model): a Python dict with the
recognized keys.  `none` models an absent key; `t.title.getD ""` models
`task.get("title", "")`. -/
structure Task where
  id : String
  title : Option String := none
  description : Option String := none
  priority : Option String := none
  status : Option String := none
  date : Option String := none
  due_date : Option String := none
deriving Repr, DecidableEq

/-- Python `a or b` on two `Optional[str]` values: `a` unless it is falsy
(`None` or the empty string). -/
def pyOr (a b : Option String) : Option String :=
  match a with
  | some s => if s = "" then b else some s
  | none => b

/-- Embedding of `get_task_date` (chat.py line 203): `task.get("date") or task.get("due_date")`. -/
def get_task_date (t : Task) : Option String := pyOr t.date t.due_date

/-- Python truthiness of `get_task_date(task)`. -/
def dateTruthy (t : Task) : Bool :=
  match get_task_date t with
  | some s => s ≠ ""
  | none => false

/-- The date string of a task, meaningful only when `dateTruthy`. -/
def taskDateStr (t : Task) : String := (get_task_date t).getD ""

/-- Python `task.get("title", "").lower()`. -/
def titleLower (t : Task) : String := lowerStr (t.title.getD "")

/-- Python `task.get("description", "").lower()`. -/
def descLower (t : Task) : String := lowerStr (t.description.getD "")

/-- Sort rank of a priority: `0` = high, `1` = medium, `2` = anything else
(chat.py lines 300 and 319). -/
def priorityRank (t : Task) : Nat :=
  if t.priority = some "high" then 0
  else if t.priority = some "medium" then 1
  else 2

/-- Python `get_task_date(x) or "9999-12-31"` (missing or empty date sorts last). -/
def dateOrSentinel (t : Task) : String :=
  match get_task_date t with
  | some s => if s = "" then "9999-12-31" else s
  | none => "9999-12-31"

/-- Python `start_date <= get_task_date(task) <= end_date`, guarded by truthiness. -/
def inRange (lo hi : String) (t : Task) : Bool :=
  dateTruthy t && strLe lo (taskDateStr t) && strLe (taskDateStr t) hi

/-! ### Keyword lists of the rule cascade (chat.py lines 206-273) -/

def todayKws : List String := ["today", "today\x27s"]

def tomorrowKws : List String := ["tomorrow", "tomorrow\x27s"]

def nextWeekKws : List String := ["next week", "next 7 days", "upcoming week"]

def weekKws : List String := ["this week", "week"]

def urgentKws : List String := ["urgent", "high priority", "important"]

def lowPriorityKws : List String := ["low priority", "least important"]

def pendingKws : List String := ["pending", "not started", "todo"]

def inProgressKws : List String := ["in progress", "working on", "current"]

def completedKws : List String := ["completed", "done", "finished"]

def overdueKws : List String := ["overdue", "late", "past due"]

def aboutKws : List String := ["about", "regarding", "related to"]

def scheduleKws : List String :=
  ["schedule", "agenda", "calendar", "tasks", "what do i have", "meeting",
    "meetings", "appointments"]

def meetingKws : List String := ["meeting", "meetings", "appointment", "appointments"]

def meetingDomainKws : List String :=
  ["meeting", "conference", "call", "appointment", "attendance", "conferencia"]

/-- Python `any(keyword in message_lower for keyword in ks)`. -/
def anySub (ks : List String) (ml : String) : Bool := ks.any (fun k => substr k ml)

/-! ### Rule 11: keyword extraction -/

/-- The suffix of `hay` after the first occurrence of `needle`
(`message_lower[message_lower.find(phrase) + len(phrase):]`); `[]` when
`needle` does not occur. -/
def afterFirst (needle : List Char) : List Char → List Char
  | [] => []
  | c :: hs =>
    if startsWithL needle (c :: hs) then List.drop needle.length (c :: hs)
    else afterFirst needle hs

/-- Python `s.strip()`. -/
def pyStrip (s : String) : String :=
  String.mk (((s.data.dropWhile Char.isWhitespace).reverse.dropWhile Char.isWhitespace).reverse)

/-- Whitespace-run splitting with no empty pieces (`accRev` holds the
current word reversed). -/
def splitWS (accRev : List Char) : List Char → List (List Char)
  | [] => if accRev = [] then [] else [accRev.reverse]
  | c :: cs =>
    if c.isWhitespace then
      if accRev = [] then splitWS [] cs else accRev.reverse :: splitWS [] cs
    else splitWS (c :: accRev) cs

/-- Python `s.split()` (no separator argument). -/
def pySplit (s : String) : List String := (splitWS [] s.data).map String.mk

/-- Rule 11 keyword extraction (chat.py lines 253-260): for each of the three
trigger phrases present in the query, up to 3 words following its first
occurrence. -/
def rule11Keywords (ml : String) : List String :=
  aboutKws.foldl
    (fun acc phrase =>
      if substr phrase ml then
        acc ++ (pySplit (pyStrip (String.mk (afterFirst phrase.data ml.data)))).take 3
      else acc)
    []

/-- Keyword test of rule 11 (chat.py line 267): some keyword occurs in the
lower-cased title or description. -/
def keywordMatch (kws : List String) (t : Task) : Bool :=
  kws.any (fun k => substr k (titleLower t) || substr k (descLower t))

/-! ### The rule cascade (chat.py lines 206-268) -/

/-- The if/elif rule cascade of `filter_tasks_by_relevance`: the value of
`filtered_tasks` after line 268 (still `[]` when no rule fired or the fired
rule selected nothing). -/
def ruleSelection (now : Date) (tasks : List Task) (ml : String) : List Task :=
  if anySub todayKws ml then
    tasks.filter (fun t => decide (get_task_date t = some (formatDate now)))
  else if anySub tomorrowKws ml then
    tasks.filter (fun t => decide (get_task_date t = some (formatDate (addDays now 1))))
  else if anySub nextWeekKws ml then
    tasks.filter (inRange (formatDate now) (formatDate (addDays now 7)))
  else if anySub weekKws ml then
    tasks.filter
      (inRange (formatDate (subDays now (weekday now)))
        (formatDate (addDays (subDays now (weekday now)) 6)))
  else if anySub urgentKws ml then
    tasks.filter (fun t => decide (t.priority = some "high"))
  else if anySub lowPriorityKws ml then
    tasks.filter (fun t => decide (t.priority = some "low"))
  else if anySub pendingKws ml then
    tasks.filter (fun t => decide (t.status = some "pending"))
  else if anySub inProgressKws ml then
    tasks.filter (fun t => decide (t.status = some "in progress"))
  else if anySub completedKws ml then
    tasks.filter (fun t => decide (t.status = some "completed"))
  else if anySub overdueKws ml then
    tasks.filter
      (fun t => dateTruthy t && strLt (taskDateStr t) (formatDate now) &&
        decide (t.status ≠ some "completed"))
  else if anySub aboutKws ml then
    if rule11Keywords ml ≠ [] then tasks.filter (keywordMatch (rule11Keywords ml))
    else []
  else []

/-! ### Fallback heuristics and final cap (chat.py lines 270-320) -/

/-- Key preorder of the fallback sort (chat.py lines 299-302):
ascending by `(priority-rank, date-or-sentinel)`. -/
def fallbackKeyLe (a b : Task) : Prop :=
  priorityRank a < priorityRank b ∨
    (priorityRank a = priorityRank b ∧ strLe (dateOrSentinel a) (dateOrSentinel b) = true)

instance : DecidableRel fallbackKeyLe := fun a b => by
  unfold fallbackKeyLe; infer_instance

/-- Key preorder of the final-cap sort (chat.py lines 317-320):
ascending by `(date-or-sentinel, priority-rank)` — the reversed key order. -/
def capKeyLe (a b : Task) : Prop :=
  strLt (dateOrSentinel a) (dateOrSentinel b) = true ∨
    (dateOrSentinel a = dateOrSentinel b ∧ priorityRank a ≤ priorityRank b)

instance : DecidableRel capKeyLe := fun a b => by
  unfold capKeyLe; infer_instance

/-- The date-window / meeting-narrowing selection of the schedule-intent
fallback (chat.py lines 275-296), before sorting and truncation. -/
def scheduleWindowSel (now : Date) (tasks : List Task) (ml : String) : List Task :=
  if anySub meetingKws ml then
    let windowed :=
      tasks.filter (inRange (formatDate (subDays now 1)) (formatDate (addDays now 7)))
    let meeting_tasks :=
      windowed.filter
        (fun t => meetingDomainKws.any (fun k => substr k (titleLower t) || substr k (descLower t)))
    if meeting_tasks ≠ [] then meeting_tasks else windowed
  else
    tasks.filter (inRange (formatDate now) (formatDate (addDays now 7)))

/-- The fallback heuristics (chat.py lines 271-312), reached when
`filtered_tasks` is empty after the cascade.  Python's stable `sorted` is
embedded as the stable `List.insertionSort`. -/
def fallback (now : Date) (tasks : List Task) (ml : String) : List Task :=
  if anySub scheduleKws ml then
    (List.insertionSort fallbackKeyLe (scheduleWindowSel now tasks ml)).take 10
  else
    (tasks.filter (fun t => decide (get_task_date t = some (formatDate now)))).take 3 ++
      (tasks.filter (fun t => decide (get_task_date t = some (formatDate (addDays now 1))))).take 3

/-- The final size cap (chat.py lines 315-320). -/
def finalCap (l : List Task) : List Task :=
  if 15 < l.length then (List.insertionSort capKeyLe l).take 15 else l

/-- Embedding of `ChatService.filter_tasks_by_relevance`
(chat.py lines 194-323), with `datetime.now()` the explicit parameter `now`. -/
def filter_tasks_by_relevance (now : Date) (tasks : List Task) (user_message : String) :
    List Task :=
  if tasks = [] then []
  else
    let ml := lowerStr user_message
    let sel := ruleSelection now tasks ml
    finalCap (if sel = [] then fallback now tasks ml else sel)

/-! ### Concrete data used by the witness theorems -/

/-- Concrete anchor date used by the witnesses: 2026-10-12, a Monday. -/
def d0 : Date := ⟨2026, 10, 12⟩

/-- A concrete task dated `d0` used by the witnesses. -/
def sampleTask : Task :=
  { id := "1", title := some "Standup meeting", priority := some "high",
    status := some "pending", date := some "2026-10-12" }

/-- A concrete task dated the day after `d0`, used by the witnesses. -/
def sampleTask2 : Task :=
  { id := "2", title := some "Write budget report", description := some "budget numbers",
    priority := some "low", date := some "2026-10-13" }

/-- None of the triggers of rules 1-10 occurs in the query. -/
def noEarlyRule (ml : String) : Bool :=
  !anySub todayKws ml && !anySub tomorrowKws ml && !anySub nextWeekKws ml &&
    !anySub weekKws ml && !anySub urgentKws ml && !anySub lowPriorityKws ml &&
    !anySub pendingKws ml && !anySub inProgressKws ml && !anySub completedKws ml &&
    !anySub overdueKws ml

/-! ### Order lemmas for the lexicographic string comparisons -/

theorem charListLe_trans : ∀ (a b c : List Char),
    charListLe a b = true → charListLe b c = true → charListLe a c = true
  | [], _, _, _, _ => rfl
  | _ :: _, [], _, h1, _ => by simp [charListLe] at h1
  | _ :: _, _ :: _, [], _, h2 => by simp [charListLe] at h2
  | a :: as, b :: bs, c :: cs, h1, h2 => by
    simp only [charListLe, Bool.or_eq_true, Bool.and_eq_true, decide_eq_true_eq] at h1 h2 ⊢
    rcases h1 with h1 | ⟨hab, h1⟩
    · rcases h2 with h2 | ⟨hbc, h2⟩
      · exact Or.inl (lt_trans h1 h2)
      · exact Or.inl (hbc ▸ h1)
    · rcases h2 with h2 | ⟨hbc, h2⟩
      · exact Or.inl (hab ▸ h2)
      · exact Or.inr ⟨hab.trans hbc, charListLe_trans as bs cs h1 h2⟩

theorem charListLe_total : ∀ (a b : List Char),
    charListLe a b = true ∨ charListLe b a = true
  | [], _ => Or.inl rfl
  | _ :: _, [] => Or.inr rfl
  | a :: as, b :: bs => by
    simp only [charListLe, Bool.or_eq_true, Bool.and_eq_true, decide_eq_true_eq]
    rcases lt_trichotomy a b with h | h | h
    · exact Or.inl (Or.inl h)
    · rcases charListLe_total as bs with ih | ih
      · exact Or.inl (Or.inr ⟨h, ih⟩)
      · exact Or.inr (Or.inr ⟨h.symm, ih⟩)
    · exact Or.inr (Or.inl h)

theorem charListLt_trans : ∀ (a b c : List Char),
    charListLt a b = true → charListLt b c = true → charListLt a c = true
  | [], [], _, h1, _ => by simp [charListLt] at h1
  | [], _ :: _, [], _, h2 => by simp [charListLt] at h2
  | [], _ :: _, _ :: _, _, _ => rfl
  | _ :: _, [], _, h1, _ => by simp [charListLt] at h1
  | _ :: _, _ :: _, [], _, h2 => by simp [charListLt] at h2
  | a :: as, b :: bs, c :: cs, h1, h2 => by
    simp only [charListLt, Bool.or_eq_true, Bool.and_eq_true, decide_eq_true_eq] at h1 h2 ⊢
    rcases h1 with h1 | ⟨hab, h1⟩
    · rcases h2 with h2 | ⟨hbc, h2⟩
      · exact Or.inl (lt_trans h1 h2)
      · exact Or.inl (hbc ▸ h1)
    · rcases h2 with h2 | ⟨hbc, h2⟩
      · exact Or.inl (hab ▸ h2)
      · exact Or.inr ⟨hab.trans hbc, charListLt_trans as bs cs h1 h2⟩

theorem charListLt_trichotomy : ∀ (a b : List Char),
    charListLt a b = true ∨ a = b ∨ charListLt b a = true
  | [], [] => Or.inr (Or.inl rfl)
  | [], _ :: _ => Or.inl rfl
  | _ :: _, [] => Or.inr (Or.inr rfl)
  | a :: as, b :: bs => by
    simp only [charListLt, Bool.or_eq_true, Bool.and_eq_true, decide_eq_true_eq]
    rcases lt_trichotomy a b with h | h | h
    · exact Or.inl (Or.inl h)
    · rcases charListLt_trichotomy as bs with ih | ih | ih
      · exact Or.inl (Or.inr ⟨h, ih⟩)
      · exact Or.inr (Or.inl (by rw [h, ih]))
      · exact Or.inr (Or.inr (Or.inr ⟨h.symm, ih⟩))
    · exact Or.inr (Or.inr (Or.inl h))

theorem strLe_trans {a b c : String} (h1 : strLe a b = true) (h2 : strLe b c = true) :
    strLe a c = true :=
  charListLe_trans a.data b.data c.data h1 h2

theorem strLe_total (a b : String) : strLe a b = true ∨ strLe b a = true :=
  charListLe_total a.data b.data

theorem strLt_trans {a b c : String} (h1 : strLt a b = true) (h2 : strLt b c = true) :
    strLt a c = true :=
  charListLt_trans a.data b.data c.data h1 h2

theorem strLt_trichotomy (a b : String) :
    strLt a b = true ∨ a = b ∨ strLt b a = true := by
  rcases charListLt_trichotomy a.data b.data with h | h | h
  · exact Or.inl h
  · exact Or.inr (Or.inl (String.ext h))
  · exact Or.inr (Or.inr h)

/-! ### The two sort-key preorders are total and transitive -/

theorem fallbackKeyLe_total (a b : Task) : fallbackKeyLe a b ∨ fallbackKeyLe b a := by
  unfold fallbackKeyLe
  rcases Nat.lt_trichotomy (priorityRank a) (priorityRank b) with h | h | h
  · exact Or.inl (Or.inl h)
  · rcases strLe_total (dateOrSentinel a) (dateOrSentinel b) with hs | hs
    · exact Or.inl (Or.inr ⟨h, hs⟩)
    · exact Or.inr (Or.inr ⟨h.symm, hs⟩)
  · exact Or.inr (Or.inl h)

theorem fallbackKeyLe_trans (a b c : Task) :
    fallbackKeyLe a b → fallbackKeyLe b c → fallbackKeyLe a c := by
  unfold fallbackKeyLe
  rintro (h1 | ⟨h1, h1'⟩) (h2 | ⟨h2, h2'⟩)
  · exact Or.inl (Nat.lt_trans h1 h2)
  · exact Or.inl (h2 ▸ h1)
  · exact Or.inl (h1 ▸ h2)
  · exact Or.inr ⟨h1.trans h2, strLe_trans h1' h2'⟩

theorem capKeyLe_total (a b : Task) : capKeyLe a b ∨ capKeyLe b a := by
  unfold capKeyLe
  rcases strLt_trichotomy (dateOrSentinel a) (dateOrSentinel b) with h | h | h
  · exact Or.inl (Or.inl h)
  · rcases Nat.le_total (priorityRank a) (priorityRank b) with hp | hp
    · exact Or.inl (Or.inr ⟨h, hp⟩)
    · exact Or.inr (Or.inr ⟨h.symm, hp⟩)
  · exact Or.inr (Or.inl h)

theorem capKeyLe_trans (a b c : Task) : capKeyLe a b → capKeyLe b c → capKeyLe a c := by
  unfold capKeyLe
  rintro (h1 | ⟨h1, h1'⟩) (h2 | ⟨h2, h2'⟩)
  · exact Or.inl (strLt_trans h1 h2)
  · exact Or.inl (h2 ▸ h1)
  · exact Or.inl (h1 ▸ h2)
  · exact Or.inr ⟨h1.trans h2, Nat.le_trans h1' h2'⟩

/-! ### Membership and length helpers -/

theorem ruleSelection_eq_filter_or_nil (now : Date) (tasks : List Task) (ml : String) :
    (∃ p : Task → Bool, ruleSelection now tasks ml = tasks.filter p) ∨
      ruleSelection now tasks ml = [] := by
  unfold ruleSelection
  by_cases c : anySub todayKws ml = true
  · rw [if_pos c]; exact Or.inl ⟨_, rfl⟩
  rw [if_neg c]
  by_cases c : anySub tomorrowKws ml = true
  · rw [if_pos c]; exact Or.inl ⟨_, rfl⟩
  rw [if_neg c]
  by_cases c : anySub nextWeekKws ml = true
  · rw [if_pos c]; exact Or.inl ⟨_, rfl⟩
  rw [if_neg c]
  by_cases c : anySub weekKws ml = true
  · rw [if_pos c]; exact Or.inl ⟨_, rfl⟩
  rw [if_neg c]
  by_cases c : anySub urgentKws ml = true
  · rw [if_pos c]; exact Or.inl ⟨_, rfl⟩
  rw [if_neg c]
  by_cases c : anySub lowPriorityKws ml = true
  · rw [if_pos c]; exact Or.inl ⟨_, rfl⟩
  rw [if_neg c]
  by_cases c : anySub pendingKws ml = true
  · rw [if_pos c]; exact Or.inl ⟨_, rfl⟩
  rw [if_neg c]
  by_cases c : anySub inProgressKws ml = true
  · rw [if_pos c]; exact Or.inl ⟨_, rfl⟩
  rw [if_neg c]
  by_cases c : anySub completedKws ml = true
  · rw [if_pos c]; exact Or.inl ⟨_, rfl⟩
  rw [if_neg c]
  by_cases c : anySub overdueKws ml = true
  · rw [if_pos c]; exact Or.inl ⟨_, rfl⟩
  rw [if_neg c]
  by_cases c : anySub aboutKws ml = true
  · rw [if_pos c]
    by_cases c2 : rule11Keywords ml ≠ []
    · rw [if_pos c2]; exact Or.inl ⟨_, rfl⟩
    · rw [if_neg c2]; exact Or.inr rfl
  · rw [if_neg c]; exact Or.inr rfl

theorem ruleSelection_subset (now : Date) (tasks : List Task) (ml : String) (t : Task)
    (h : t ∈ ruleSelection now tasks ml) : t ∈ tasks := by
  rcases ruleSelection_eq_filter_or_nil now tasks ml with ⟨p, hp⟩ | hnil
  · rw [hp] at h; exact List.mem_of_mem_filter h
  · rw [hnil] at h; simp at h

theorem scheduleWindowSel_subset (now : Date) (tasks : List Task) (ml : String) (t : Task)
    (h : t ∈ scheduleWindowSel now tasks ml) : t ∈ tasks := by
  simp only [scheduleWindowSel] at h
  split at h
  · split at h
    · exact List.mem_of_mem_filter (List.mem_of_mem_filter h)
    · exact List.mem_of_mem_filter h
  · exact List.mem_of_mem_filter h

theorem fallback_subset (now : Date) (tasks : List Task) (ml : String) (t : Task)
    (h : t ∈ fallback now tasks ml) : t ∈ tasks := by
  unfold fallback at h
  split at h
  · exact scheduleWindowSel_subset now tasks ml t
      ((List.mem_insertionSort _).mp (List.take_subset _ _ h))
  · rcases List.mem_append.mp h with h1 | h1
    · exact List.mem_of_mem_filter (List.take_subset _ _ h1)
    · exact List.mem_of_mem_filter (List.take_subset _ _ h1)

theorem finalCap_subset (l : List Task) (t : Task) (h : t ∈ finalCap l) : t ∈ l := by
  unfold finalCap at h
  split at h
  · exact (List.mem_insertionSort _).mp (List.take_subset _ _ h)
  · exact h

theorem finalCap_length_le (l : List Task) : (finalCap l).length ≤ 15 := by
  unfold finalCap
  split
  · exact List.length_take_le _ _
  · omega

theorem fallback_length_le (now : Date) (tasks : List Task) (ml : String) :
    (fallback now tasks ml).length ≤ 10 := by
  unfold fallback
  split
  · exact List.length_take_le _ _
  · rw [List.length_append]
    exact le_trans (Nat.add_le_add (List.length_take_le _ _) (List.length_take_le _ _))
      (by norm_num)

/-! ### The claims -/

/-- Claim C1: for every current moment, task list and query string, the list
returned by `filter_tasks_by_relevance` has length at least 0 (trivially,
as a list) and at most 15. -/
theorem output_length_le_15 (now : Date) (tasks : List Task) (msg : String) :
    (filter_tasks_by_relevance now tasks msg).length ≤ 15 := by
  unfold filter_tasks_by_relevance
  split
  · simp
  · exact finalCap_length_le _

/-- Claim C2: every record in the output of `filter_tasks_by_relevance` is a record
present in the input, unmodified — the filter only selects and reorders
(every branch is built from `filter`, `take`, append and a permutation-only
sort of the input list). -/
theorem output_subset_input (now : Date) (tasks : List Task) (msg : String) (t : Task)
    (h : t ∈ filter_tasks_by_relevance now tasks msg) : t ∈ tasks := by
  unfold filter_tasks_by_relevance at h
  split at h
  · simp at h
  · have h1 := finalCap_subset _ _ h
    split at h1
    · exact fallback_subset _ _ _ _ h1
    · exact ruleSelection_subset _ _ _ _ h1



/-- Witness for C2: a task selected by the query "today" is a member of the
input list. -/
theorem output_subset_input_witness : sampleTask ∈ [sampleTask] :=
  output_subset_input d0 [sampleTask] "today" sampleTask (by decide)

/-- Claim C6: for every current moment and query string, an empty task collection
returns the empty list immediately (the guard at chat.py line 196), with no
rule evaluation and no fallback. -/
theorem empty_tasks_returns_empty (now : Date) (msg : String) :
    filter_tasks_by_relevance now [] msg = [] := rfl


/-- Claim C3: the rule cascade is evaluated in its fixed order and only the first
matching rule applies: a query whose lower-casing contains both "urgent" and
"today" is resolved by rule 1 (`date == today`) — the cascade's selection is
exactly the rule-1 filter, never the rule-5 (`priority == high`) filter —
and when that selection is non-empty and within the cap the function returns
it unchanged. -/
theorem urgent_today_resolves_by_rule1 (now : Date) (tasks : List Task) (msg : String)
    (hu : substr "urgent" (lowerStr msg) = true)
    (ht : substr "today" (lowerStr msg) = true) :
    ruleSelection now tasks (lowerStr msg) =
      tasks.filter (fun t => decide (get_task_date t = some (formatDate now))) ∧
    (tasks ≠ [] →
      tasks.filter (fun t => decide (get_task_date t = some (formatDate now))) ≠ [] →
      (tasks.filter (fun t => decide (get_task_date t = some (formatDate now)))).length ≤ 15 →
      filter_tasks_by_relevance now tasks msg =
        tasks.filter (fun t => decide (get_task_date t = some (formatDate now)))) := by
  have hrule : anySub todayKws (lowerStr msg) = true := by
    simp [anySub, todayKws, ht]
  have hsel : ruleSelection now tasks (lowerStr msg) =
      tasks.filter (fun t => decide (get_task_date t = some (formatDate now))) := by
    unfold ruleSelection
    rw [if_pos hrule]
  refine ⟨hsel, fun hne hselne hlen => ?_⟩
  unfold filter_tasks_by_relevance
  rw [if_neg hne]
  show finalCap
      (if ruleSelection now tasks (lowerStr msg) = [] then fallback now tasks (lowerStr msg)
        else ruleSelection now tasks (lowerStr msg)) = _
  rw [hsel, if_neg hselne]
  have hcap : ¬ 15 <
      (tasks.filter (fun t => decide (get_task_date t = some (formatDate now)))).length := by
    omega
  unfold finalCap
  rw [if_neg hcap]

/-- Witness for C3 at a concrete query containing both "urgent" and "today". -/
theorem urgent_today_resolves_by_rule1_witness :
    ruleSelection d0 [sampleTask, sampleTask2] (lowerStr "urgent today") =
      [sampleTask, sampleTask2].filter
        (fun t => decide (get_task_date t = some (formatDate d0))) :=
  (urgent_today_resolves_by_rule1 d0 [sampleTask, sampleTask2] "urgent today"
    (by decide) (by decide)).1

/-- Claim C4: `parse_date_from_text` is total by construction (it is a Lean
function into `String`; the Python code catches the only possible
`ValueError`); when no relative phrase occurs and the `D/M/YYYY` pattern is
absent or does not form a valid calendar date, the match is discarded and
the result is today's date. -/
theorem date_parse_invalid_defaults_today (now : Date) (text : String)
    (h1 : substr "today" (lowerStr text) = false)
    (h2 : substr "tomorrow" (lowerStr text) = false)
    (h3 : substr "next week" (lowerStr text) = false)
    (h4 : substr "next month" (lowerStr text) = false)
    (h5 : searchDate text.data = none ∨
      ∃ d m y, searchDate text.data = some (d, m, y) ∧ mkValidDate y m d = none) :
    parse_date_from_text now text = formatDate now := by
  rcases h5 with h5 | ⟨d, m, y, hs, hv⟩
  · simp [parse_date_from_text, h1, h2, h3, h4, h5]
  · simp [parse_date_from_text, h1, h2, h3, h4, hs, hv]

/-- Witness for C4: "due 31/13/2024" matches the numeric pattern with
month 13, the match is discarded, and today's date is returned. -/
theorem date_parse_invalid_defaults_today_witness :
    parse_date_from_text d0 "due 31/13/2024" = formatDate d0 :=
  date_parse_invalid_defaults_today d0 "due 31/13/2024" (by decide) (by decide)
    (by decide) (by decide) (Or.inr ⟨31, 13, 2024, by decide, by decide⟩)

/-- Claim C5: `parse_date_from_text` scans the lower-cased text for relative
phrases in priority order: "today" ↦ `now`, then "tomorrow" ↦ `now + 1` day,
then "next week" ↦ `now + 7` days, then "next month" ↦ `now + 30` days (a
fixed 30-day offset).  The function is pure, so repeated calls with the same
anchor return the same `now + 1`-day result for "tomorrow". -/
theorem relative_phrase_resolution (now : Date) (text : String) :
    (substr "today" (lowerStr text) = true →
      parse_date_from_text now text = formatDate now) ∧
    (substr "today" (lowerStr text) = false →
      substr "tomorrow" (lowerStr text) = true →
      parse_date_from_text now text = formatDate (addDays now 1)) ∧
    (substr "today" (lowerStr text) = false →
      substr "tomorrow" (lowerStr text) = false →
      substr "next week" (lowerStr text) = true →
      parse_date_from_text now text = formatDate (addDays now 7)) ∧
    (substr "today" (lowerStr text) = false →
      substr "tomorrow" (lowerStr text) = false →
      substr "next week" (lowerStr text) = false →
      substr "next month" (lowerStr text) = true →
      parse_date_from_text now text = formatDate (addDays now 30)) := by
  refine ⟨fun h1 => ?_, fun h1 h2 => ?_, fun h1 h2 h3 => ?_, fun h1 h2 h3 h4 => ?_⟩
  · simp [parse_date_from_text, h1]
  · simp [parse_date_from_text, h1, h2]
  · simp [parse_date_from_text, h1, h2, h3]
  · simp [parse_date_from_text, h1, h2, h3, h4]

/-- Witness for C5: "remind me Tomorrow" (mixed case) resolves to the day
after the anchor. -/
theorem relative_phrase_resolution_witness :
    parse_date_from_text d0 "remind me Tomorrow" = formatDate (addDays d0 1) :=
  (relative_phrase_resolution d0 "remind me Tomorrow").2.1 (by decide) (by decide)

/-- Claim C7: the fallback runs if and only if the cascade's selection is empty
(which covers both "no rule matched" and "the matched rule's filter selected
nothing"); and for a query triggering rule 2 ("tomorrow", rule 1 silent)
over a list containing a task dated tomorrow, the selection is non-empty,
so no fallback (in particular no meeting-narrowing) is applied. -/
theorem fallback_iff_rule_empty (now : Date) (tasks : List Task) (msg : String)
    (hne : tasks ≠ []) :
    (ruleSelection now tasks (lowerStr msg) ≠ [] →
      filter_tasks_by_relevance now tasks msg =
        finalCap (ruleSelection now tasks (lowerStr msg))) ∧
    (ruleSelection now tasks (lowerStr msg) = [] →
      filter_tasks_by_relevance now tasks msg =
        finalCap (fallback now tasks (lowerStr msg))) ∧
    (anySub todayKws (lowerStr msg) = false →
      substr "tomorrow" (lowerStr msg) = true →
      (∃ t ∈ tasks, get_task_date t = some (formatDate (addDays now 1))) →
      ruleSelection now tasks (lowerStr msg) ≠ []) := by
  refine ⟨fun hsel => ?_, fun hsel => ?_, fun h1 h2 hex => ?_⟩
  · unfold filter_tasks_by_relevance
    rw [if_neg hne]
    show finalCap
        (if ruleSelection now tasks (lowerStr msg) = [] then fallback now tasks (lowerStr msg)
          else ruleSelection now tasks (lowerStr msg)) = _
    rw [if_neg hsel]
  · unfold filter_tasks_by_relevance
    rw [if_neg hne]
    show finalCap
        (if ruleSelection now tasks (lowerStr msg) = [] then fallback now tasks (lowerStr msg)
          else ruleSelection now tasks (lowerStr msg)) = _
    rw [if_pos hsel]
  · obtain ⟨t, ht, hdate⟩ := hex
    have hr2 : anySub tomorrowKws (lowerStr msg) = true := by
      simp [anySub, tomorrowKws, h2]
    unfold ruleSelection
    rw [if_neg (by simp [h1]), if_pos hr2]
    exact List.ne_nil_of_mem (List.mem_filter.mpr ⟨ht, by simp [hdate]⟩)

/-- Witness for C7: the query "tomorrow" over a singleton list whose task is
dated tomorrow yields a non-empty rule selection. -/
theorem fallback_iff_rule_empty_witness :
    ruleSelection d0 [sampleTask2] (lowerStr "tomorrow") ≠ [] :=
  (fallback_iff_rule_empty d0 [sampleTask2] "tomorrow" (by decide)).2.2
    (by decide) (by decide) ⟨sampleTask2, by decide, by decide⟩

/-- Claim C8: the schedule-intent fallback sorts its selection ascending by the
key `(priority-rank, date-or-sentinel)` (rank 0 = high, 1 = medium,
2 = other; missing dates as "9999-12-31") and truncates to the first 10; the
final cap fires only when the selection exceeds 15, sorts by the reversed
key `(date-or-sentinel, priority-rank)` and truncates to the first 15. -/
theorem fallback_sort_and_final_cap (now : Date) (tasks : List Task) (ml : String)
    (l : List Task) (hs : anySub scheduleKws ml = true) :
    fallback now tasks ml =
      (List.insertionSort fallbackKeyLe (scheduleWindowSel now tasks ml)).take 10 ∧
    (fallback now tasks ml).Pairwise fallbackKeyLe ∧
    (fallback now tasks ml).length ≤ 10 ∧
    (l.length ≤ 15 → finalCap l = l) ∧
    (15 < l.length →
      finalCap l = (List.insertionSort capKeyLe l).take 15 ∧
      (finalCap l).Pairwise capKeyLe ∧ (finalCap l).length = 15) := by
  have hfb : fallback now tasks ml =
      (List.insertionSort fallbackKeyLe (scheduleWindowSel now tasks ml)).take 10 := by
    unfold fallback
    rw [if_pos hs]
  refine ⟨hfb, ?_, fallback_length_le now tasks ml, fun hle => ?_, fun hgt => ?_⟩
  · rw [hfb]
    haveI : IsTotal Task fallbackKeyLe := ⟨fallbackKeyLe_total⟩
    haveI : IsTrans Task fallbackKeyLe := ⟨fallbackKeyLe_trans⟩
    exact List.Pairwise.sublist (List.take_sublist _ _)
      (List.sorted_insertionSort fallbackKeyLe _)
  · unfold finalCap
    rw [if_neg (by omega)]
  · have hcap : finalCap l = (List.insertionSort capKeyLe l).take 15 := by
      unfold finalCap
      rw [if_pos hgt]
    refine ⟨hcap, ?_, ?_⟩
    · rw [hcap]
      haveI : IsTotal Task capKeyLe := ⟨capKeyLe_total⟩
      haveI : IsTrans Task capKeyLe := ⟨capKeyLe_trans⟩
      exact List.Pairwise.sublist (List.take_sublist _ _)
        (List.sorted_insertionSort capKeyLe _)
    · rw [hcap, List.length_take, List.length_insertionSort]
      exact min_eq_left (by omega)

/-- Witness for C8: the schedule fallback takes the sorted-by-(rank, date)
first 10, and the cap sorts 16 identical records by the reversed key and
keeps 15. -/
theorem fallback_sort_and_final_cap_witness :
    fallback d0 [sampleTask, sampleTask2] "schedule" =
      (List.insertionSort fallbackKeyLe
        (scheduleWindowSel d0 [sampleTask, sampleTask2] "schedule")).take 10 ∧
    finalCap (List.replicate 16 sampleTask) =
      (List.insertionSort capKeyLe (List.replicate 16 sampleTask)).take 15 := by
  have h := fallback_sort_and_final_cap d0 [sampleTask, sampleTask2] "schedule"
    (List.replicate 16 sampleTask) (by decide)
  exact ⟨h.1, (h.2.2.2.2 (by decide)).1⟩


/-- Claim C9: when rule 11 fires (rules 1-10 silent, one of "about" / "regarding" /
"related to" present), the keywords are up to 3 words following each matched
phrase (`rule11Keywords`), and — whenever that keyword filter is non-empty
and within the cap — the function returns exactly the tasks whose
lower-cased title or description contains one of the keywords. -/
theorem rule11_keyword_search (now : Date) (tasks : List Task) (msg : String)
    (hpre : noEarlyRule (lowerStr msg) = true)
    (hab : anySub aboutKws (lowerStr msg) = true)
    (hkw : tasks.filter (keywordMatch (rule11Keywords (lowerStr msg))) ≠ [])
    (hlen : (tasks.filter (keywordMatch (rule11Keywords (lowerStr msg)))).length ≤ 15) :
    filter_tasks_by_relevance now tasks msg =
      tasks.filter (keywordMatch (rule11Keywords (lowerStr msg))) := by
  have hkne : rule11Keywords (lowerStr msg) ≠ [] := by
    intro hnil
    apply hkw
    rw [hnil]
    simp [keywordMatch]
  have htasks : tasks ≠ [] := by
    intro hnil
    apply hkw
    rw [hnil]
    simp
  have hsel : ruleSelection now tasks (lowerStr msg) =
      tasks.filter (keywordMatch (rule11Keywords (lowerStr msg))) := by
    unfold ruleSelection
    simp only [noEarlyRule, Bool.and_eq_true, Bool.not_eq_true'] at hpre
    obtain ⟨⟨⟨⟨⟨⟨⟨⟨⟨h1, h2⟩, h3⟩, h4⟩, h5⟩, h6⟩, h7⟩, h8⟩, h9⟩, h10⟩ := hpre
    rw [if_neg (by simp [h1]), if_neg (by simp [h2]), if_neg (by simp [h3]),
      if_neg (by simp [h4]), if_neg (by simp [h5]), if_neg (by simp [h6]),
      if_neg (by simp [h7]), if_neg (by simp [h8]), if_neg (by simp [h9]),
      if_neg (by simp [h10]), if_pos hab, if_pos hkne]
  unfold filter_tasks_by_relevance
  rw [if_neg htasks]
  show finalCap
      (if ruleSelection now tasks (lowerStr msg) = [] then fallback now tasks (lowerStr msg)
        else ruleSelection now tasks (lowerStr msg)) = _
  rw [hsel, if_neg hkw]
  unfold finalCap
  rw [if_neg (by omega)]

/-- Witness for C9: "about the budget report" extracts keywords
["the", "budget", "report"] and selects exactly the matching task. -/
theorem rule11_keyword_search_witness :
    filter_tasks_by_relevance d0 [sampleTask, sampleTask2] "about the budget report" =
      [sampleTask, sampleTask2].filter
        (keywordMatch (rule11Keywords (lowerStr "about the budget report"))) :=
  rule11_keyword_search d0 [sampleTask, sampleTask2] "about the budget report"
    (by decide) (by decide) (by decide) (by decide)

/-- Claim C10: every fallback branch produces at most 10 records (the generic
branch even at most 3 + 3 = 6), so the >15 cap and its re-sort are never
applied to a fallback result: when the fallback runs, the order it produces
is exactly the order returned. -/
theorem fallback_bounded_and_order_preserved (now : Date) (tasks : List Task) (msg : String) :
    (fallback now tasks (lowerStr msg)).length ≤ 10 ∧
    (anySub scheduleKws (lowerStr msg) = false →
      (fallback now tasks (lowerStr msg)).length ≤ 6) ∧
    (tasks ≠ [] → ruleSelection now tasks (lowerStr msg) = [] →
      filter_tasks_by_relevance now tasks msg = fallback now tasks (lowerStr msg)) := by
  refine ⟨fallback_length_le now tasks (lowerStr msg), fun hs => ?_, fun hne hsel => ?_⟩
  · unfold fallback
    rw [if_neg (by simp [hs]), List.length_append]
    exact le_trans
      (Nat.add_le_add (List.length_take_le _ _) (List.length_take_le _ _)) (by norm_num)
  · unfold filter_tasks_by_relevance
    rw [if_neg hne]
    show finalCap
        (if ruleSelection now tasks (lowerStr msg) = [] then fallback now tasks (lowerStr msg)
          else ruleSelection now tasks (lowerStr msg)) = _
    rw [if_pos hsel]
    unfold finalCap
    rw [if_neg (by have := fallback_length_le now tasks (lowerStr msg); omega)]

/-- Witness for C10: a query with no trigger keywords returns the generic
fallback context verbatim. -/
theorem fallback_bounded_and_order_preserved_witness :
    filter_tasks_by_relevance d0 [sampleTask] "hello" =
      fallback d0 [sampleTask] (lowerStr "hello") :=
  (fallback_bounded_and_order_preserved d0 [sampleTask] "hello").2.2
    (by decide) (by decide)

end DonnaLife
